import Mathlib

/-
  Verification of the core of the TickTock time-series database
  (danielbaak/ticktock) against its natural-language specification.

  Shallow embedding of:
    - src/agg/rollup.cpp   (RollupManager)
    - src/core/page.cpp    (PageManager, PageInfo)
    - src/utils/config.cpp (Config)

  Machine integers (u16/u32/u64 counters and timestamps) are modelled as Nat;
  every value appearing in the claims stays far below the wrap bounds, and the
  places where C integral promotion or unsigned wrap could matter are noted at
  the definitions.  C++ double values are modelled as Rat: the operations the
  claims exercise (min, max, +) are exact on the inputs involved.
-/

namespace TickTock

/-! ## Rollup aggregator (src/agg/rollup.cpp) -/

/-- Interface record for the part of a `Tsdb` that `RollupManager` reads.
Modelled from the spec: class `Tsdb` is not under `src/`; spec section 4.4
names `tsdb.rollup_interval` (seconds) and the file time range accessors
`get_from_sec` and `get_to_sec` used by the aggregator. -/
structure TsdbM where
  interval : Nat
  fromSec : Nat
  toSec : Nat
deriving DecidableEq

/-- One call of `Tsdb::add_rollup_point` as observed by the claims: the tsdb that
receives it, the bucket timestamp `m_tstamp` at the moment of the flush, and the
four accumulators.  Modelled from the spec: `Tsdb::add_rollup_point` is not under
`src/`; spec section 4.4 says flush emits `(m_tstamp, cnt, min, max, sum)` to
`tsdb.add_rollup_point`. -/
structure RollupPoint where
  tsdb : TsdbM
  tstamp : Nat
  cnt : Nat
  minv : Rat
  maxv : Rat
  sum : Rat
deriving DecidableEq

/-- Per-series state of `RollupManager` (rollup.cpp lines 28-36): the four
accumulators, the bound tsdb (null modelled as `none`), and the lower bound of
the current bucket, where `none` stands for `TT_INVALID_TIMESTAMP`.  Timestamps
are in seconds (the claims use second resolution, where `to_sec` is the
identity). -/
structure RollupSt where
  m_cnt : Nat
  m_min : Rat
  m_max : Rat
  m_sum : Rat
  m_tsdb : Option TsdbM
  m_tstamp : Option Nat
deriving DecidableEq

/-- Constructor `RollupManager::RollupManager` (rollup.cpp lines 28-36): zero
accumulators, no tsdb, invalid timestamp. -/
def initRollup : RollupSt :=
  { m_cnt := 0, m_min := 0, m_max := 0, m_sum := 0, m_tsdb := none, m_tstamp := none }

/-- Function `RollupManager::flush` (rollup.cpp lines 87-99): no-op when
`m_tstamp` is invalid; otherwise emit the accumulators at `m_tstamp` to the
bound tsdb and reset them (`m_tstamp` itself is kept).  A valid `m_tstamp`
with an unbound tsdb cannot arise (the timestamp is only ever set after the
tsdb is bound); that case is mapped to the no-op branch. -/
def flushRM (st : RollupSt) : RollupSt × List RollupPoint :=
  match st.m_tstamp, st.m_tsdb with
  | some t, some tsdb =>
      ({ st with m_cnt := 0, m_min := 0, m_max := 0, m_sum := 0 },
       [⟨tsdb, t, st.m_cnt, st.m_min, st.m_max, st.m_sum⟩])
  | _, _ => (st, [])

/-- Accumulation step of `RollupManager::add_data_point` (rollup.cpp lines
81-84), verbatim: `m_min` is updated first and `m_max` is then computed from
the already-updated `m_min` (`m_max = std::max(m_min, value)` in the source). -/
def accumulate (st : RollupSt) (v : Rat) : RollupSt :=
  { st with
      m_cnt := st.m_cnt + 1
      m_min := min st.m_min v
      m_max := max (min st.m_min v) v
      m_sum := st.m_sum + v }

/-- Fuel-indexed body of the two gap-filling loops of
`RollupManager::add_data_point` (rollup.cpp lines 68-69 and 76-77): while
`cur < endT` and `cur < target`, set `m_tstamp := cur`, flush, advance by the
interval; on exit `m_tstamp` holds the first value that failed the condition.
The conjunct `0 < i` mirrors `ASSERT(interval > 0)` in the source (with
interval 0 the C loop would not terminate).  Fuel only bounds the recursion
and is always chosen large enough (see `gapLoop`), so it never cuts a run of
the loop short. -/
def gapLoopAux (i endT target : Nat) :
    Nat → RollupSt → Nat → RollupSt × List RollupPoint × Nat
  | 0, st, cur => ({ st with m_tstamp := some cur }, [], cur)
  | fuel + 1, st, cur =>
      if 0 < i ∧ cur < endT ∧ cur < target then
        let p := flushRM { st with m_tstamp := some cur }
        let q := gapLoopAux i endT target fuel p.1 (cur + i)
        (q.1, p.2 ++ q.2.1, q.2.2)
      else ({ st with m_tstamp := some cur }, [], cur)

/-- The gap-filling loop with sufficient fuel: each iteration advances `cur`
by `i ≥ 1`, so the loop runs at most `target - cur` times. -/
def gapLoop (i endT target : Nat) (st : RollupSt) (cur : Nat) :
    RollupSt × List RollupPoint × Nat :=
  gapLoopAux i endT target (target - cur) st cur

/-- Function `RollupManager::add_data_point` (rollup.cpp lines 43-85), for
in-order datapoints: bind the tsdb on first use, step the timestamp down to
its bucket, on a bucket change flush the current bucket, gap-fill up to the
new bucket (rebinding to the tsdb passed in this call when the file end is
reached), then accumulate the value.  Returns the new state together with the
rollup points emitted, in emission order. -/
def addDataPoint (st : RollupSt) (tsdb : TsdbM) (ts : Nat) (v : Rat) :
    RollupSt × List RollupPoint :=
  let tsdb0 := st.m_tsdb.getD tsdb
  let i := tsdb0.interval
  let bucket := ts - ts % i
  let t0 := st.m_tstamp.getD bucket
  let st1 : RollupSt := { st with m_tsdb := some tsdb0, m_tstamp := some t0 }
  if bucket = t0 then (accumulate st1 v, [])
  else
    let f := flushRM st1
    let g := gapLoop i tsdb0.toSec bucket f.1 (t0 + i)
    if tsdb0.toSec ≤ g.2.2 then
      let h := gapLoop tsdb.interval bucket bucket
                 { g.1 with m_tsdb := some tsdb } tsdb.fromSec
      (accumulate h.1 v, f.2 ++ g.2.1 ++ h.2.1)
    else (accumulate g.1 v, f.2 ++ g.2.1)

/-! ## Paged storage engine: PageManager (src/core/page.cpp) -/

/-- Size in bytes of `struct tsdb_header`.  Modelled from the spec: `page.h`,
which declares the struct, is not under `src/`; the on-disk format contract of
spec section 6 gives the field widths (4 bytes of u8, four u32, two i64), and
natural C layout pads the struct to 40 bytes.  The claims below do not depend
on the padding choice. -/
def tsdbHeaderSize : Nat := 40

/-- Size in bytes of `struct page_info_on_disk`.  Modelled from the spec:
`page.h` is not under `src/`; the field widths of the on-disk format contract
(u32, four u16, two u8, two u32) add up to 20 bytes with no padding. -/
def pageInfoSize : Nat := 20

/-- Function `PageManager::calc_first_page_info_index` (page.cpp lines 434-438):
`ceil((page_count * sizeof(page_info_on_disk) + sizeof(tsdb_header)) / (double)g_page_size)`,
the index of the first physical page that lies past the header region.  The
double arithmetic is exact at these magnitudes, so this is Nat ceiling
division.  `psz` is the global `g_page_size`. -/
def calcFirstPageInfoIndex (psz pageCount : Nat) : Nat :=
  (pageCount * pageInfoSize + tsdbHeaderSize + (psz - 1)) / psz

/-- Fields of one `page_info_on_disk` entry that the allocation, recovery and
invariant claims read or write: `m_page_index` (u32), `m_offset` and `m_size`
(u16), and the out-of-order flag.  Values in the claims stay far below the
wrap bounds. -/
structure PgHeader where
  m_page_index : Nat
  m_offset : Nat
  m_size : Nat
  m_is_ooo : Bool
deriving DecidableEq

/-- Mutable per-file state of a `PageManager`: the four counters of the mapped
`tsdb_header` (page.cpp lines 497-502) and the header table, with `headers i`
standing for `m_page_info[i]`. -/
structure PMState where
  m_page_count : Nat
  m_page_index : Nat
  m_header_index : Nat
  m_actual_pg_cnt : Nat
  headers : Nat → PgHeader

/-- Functional update of one slot of the header table. -/
def setHeader (hs : Nat → PgHeader) (i : Nat) (h : PgHeader) : Nat → PgHeader :=
  fun j => if j = i then h else hs j

/-- State of a freshly created file: the new-file branch of
`PageManager::open_mmap` (page.cpp lines 506-520) sets
`page_index = calc_first_page_info_index(page_count)`, `header_index = 0`,
`actual_pg_cnt = page_count`, and `init_headers` (page.cpp lines 412-421)
zero-fills the header table.  This models only a creation that completed:
the early-return error paths of `open_mmap` (failed open, fstat, ftruncate
or mmap, page.cpp lines 449-488) leave the function before any header write
and produce no file at all.  In particular `mmap` of length 0 fails, so a
completed creation has `page_count * g_page_size > 0`, i.e.
`page_count ≥ 1`; theorems about creation therefore carry that hypothesis,
and the persisted header region must fit inside the truncated file for the
written state to be coherent. -/
def newFile (psz pageCount : Nat) : PMState :=
  { m_page_count := pageCount
    m_page_index := calcFirstPageInfoIndex psz pageCount
    m_header_index := 0
    m_actual_pg_cnt := pageCount
    headers := fun _ => ⟨0, 0, 0, false⟩ }

/-- Function `PageManager::get_free_page_on_disk` (page.cpp lines 592-629).
Result is `some (page_idx, header_id)` on success and `none` for the
OutOfPages branch, paired with the updated state.  On success,
`PageInfo::init_for_disk` (page.cpp lines 147-165) writes
`m_page_index = page_idx`, `m_offset = 0`, `m_size = g_page_size` and the ooo
flag into the reserved header, and both counters are bumped.  The memory-pool
OOM branch (fatal) is not modelled. -/
def getFreePageOnDisk (psz : Nat) (ooo : Bool) (st : PMState) :
    Option (Nat × Nat) × PMState :=
  if st.m_page_index < st.m_actual_pg_cnt ∧ st.m_header_index < st.m_page_count then
    (some (st.m_page_index, st.m_header_index),
     { st with
        headers := setHeader st.headers st.m_header_index
                     ⟨st.m_page_index, 0, psz, ooo⟩
        m_page_index := st.m_page_index + 1
        m_header_index := st.m_header_index + 1 })
  else (none, st)

/-- Function `PageManager::get_free_page_for_compaction` (page.cpp lines
631-688).  After reserving `(page_idx, header_id)` exactly like
`get_free_page_on_disk` (never out-of-order), if a previous header exists
(`id > 0`) its trailing space decides whether the new header is packed into
the same physical page (at least 12 bytes left) or starts the next physical
page; in the latter branch only `m_page_index` of the new header is changed,
so it keeps `offset = 0` and `size = g_page_size` from `init_for_disk`.
In the source `g_page_size - offset` is compared after integral promotion of
the u16 operands to `int`, so an `offset` beyond `g_page_size` makes the test
negative and fails it, which the Nat truncated subtraction reproduces; the u16
store of `offset + size` cannot wrap while the header invariant
`offset + size ≤ PAGE_SIZE` holds, which the corresponding claim assumes. -/
def getFreePageForCompaction (psz : Nat) (st : PMState) : Option Nat × PMState :=
  if st.m_page_index < st.m_actual_pg_cnt ∧ st.m_header_index < st.m_page_count then
    let id := st.m_header_index
    let newHdr : PgHeader :=
      if 0 < id then
        let prev := st.headers (id - 1)
        let off := prev.m_offset + prev.m_size
        if 12 ≤ psz - off then ⟨prev.m_page_index, off, psz - off, false⟩
        else ⟨prev.m_page_index + 1, 0, psz, false⟩
      else ⟨st.m_page_index, 0, psz, false⟩
    (some id,
     { st with
        headers := setHeader st.headers id newHdr
        m_page_index := st.m_page_index + 1
        m_header_index := id + 1 })
  else (none, st)

/-- Backward scan of the recovery loop in the `PageManager` constructor
(page.cpp lines 392-396): starting at `id`, walk down while `id >= first` and
`get_page_info_on_disk(id)->m_page_index == 0`; the result is the exit value
of `id`.  At the call site `first = calc_first_page_info_index(...) ≥ 1`
always holds (the tsdb_header is nonempty), so the u32 wrap below zero cannot
occur and the Nat base case is never reached with a true loop condition. -/
def recoverScan (hpi : Nat → Nat) (first : Nat) : Nat → Nat
  | 0 => 0
  | id + 1 =>
      if first ≤ id + 1 ∧ hpi (id + 1) = 0 then recoverScan hpi first id
      else id + 1

/-- Existing-file recovery step of the `PageManager` constructor (page.cpp
lines 385-404): scan down from `m_page_index - 1` and store one past the exit
position back into `m_page_index` (the store is skipped when the value is
unchanged, which has the same effect). -/
def recoverOpen (psz : Nat) (st : PMState) : PMState :=
  let first := calcFirstPageInfoIndex psz st.m_page_count
  { st with
      m_page_index :=
        recoverScan (fun i => (st.headers i).m_page_index) first
          (st.m_page_index - 1) + 1 }

/-- Specification helper (not part of the source): the list of `p` empty
rollup points flushed by a gap-filling loop that starts at `c`, steps by `i`
and hits the tsdb `T`. -/
def gridEmits (T : TsdbM) (i : Nat) : Nat → Nat → List RollupPoint
  | _, 0 => []
  | c, p + 1 => ⟨T, c, 0, 0, 0, 0⟩ :: gridEmits T i (c + i) p

/-! ## PageInfo read view (src/core/page.cpp) -/

/-- Header fields of `page_info_on_disk` that `PageInfo::init_from_disk`
reads (page.cpp lines 167-182). -/
structure Piod where
  m_page_index : Nat
  m_offset : Nat
  m_size : Nat
  m_tstamp_from : Nat
  m_tstamp_to : Nat
deriving DecidableEq

/-- In-memory `TimeRange` of a `PageInfo`. -/
structure PiRange where
  tFrom : Nat
  tTo : Nat
deriving DecidableEq

/-- Function `TimeRange::add_time`.  Modelled from the spec: class `TimeRange`
is not under `src/`; per spec section 4.2 a successful `add_data_point`
expands the in-memory range to include the new timestamp. -/
def addTime (r : PiRange) (t : Nat) : PiRange :=
  ⟨min r.tFrom t, max r.tTo t⟩

/-- A `PageInfo` as the claims observe it: the optional live compressor state
(the state type `σ` is kept abstract, since compress.cpp is not under `src/`),
the attached on-disk header, and the in-memory time range. -/
structure PageInfoSt (σ : Type) where
  m_compressor : Option σ
  m_header : Piod
  m_time_range : PiRange

/-- Function `PageInfo::init_from_disk` (page.cpp lines 167-182): attach to an
existing header, derive the time range from the header offsets plus the file
start timestamp, and leave the compressor unset. -/
def initFromDisk (σ : Type) (start : Nat) (header : Piod) : PageInfoSt σ :=
  { m_compressor := none
    m_header := header
    m_time_range := ⟨header.m_tstamp_from + start, header.m_tstamp_to + start⟩ }

/-- Function `PageInfo::add_data_point` (page.cpp lines 330-338): fail
immediately with no state change when no compressor is attached; otherwise
delegate to the compressor (abstracted as the function `compress`, since
compress.cpp is not under `src/`) and expand the time range on success. -/
def piAddDataPoint {σ : Type} (compress : σ → Nat → Rat → Bool × σ)
    (pi : PageInfoSt σ) (ts : Nat) (v : Rat) : Bool × PageInfoSt σ :=
  match pi.m_compressor with
  | none => (false, pi)
  | some c =>
      let r := compress c ts v
      if r.1 then
        (true, { pi with m_compressor := some r.2,
                         m_time_range := addTime pi.m_time_range ts })
      else (false, { pi with m_compressor := some r.2 })

/-! ## Configuration store (src/utils/config.cpp) -/

/-- Function `Config::set_value_no_lock` (config.cpp lines 109-123): insert a
new property or update the existing one.  `m_properties` is modelled by its
observable content, a total lookup function. -/
def setValueNoLock (props : String → Option String) (k v : String) :
    String → Option String :=
  fun x => if x = k then some v else props x

/-- Association-list lookup: the observable content of the `m_overrides`
`std::map`. -/
def lookupKV : List (String × String) → String → Option String
  | [], _ => none
  | kv :: rest, k => if kv.1 = k then some kv.2 else lookupKV rest k

/-- Function `Config::add_override` (config.cpp lines 125-133): update the
value if the key is already present, otherwise insert the pair.
`m_overrides` is modelled as an association list with pairwise distinct keys
(the `std::map` invariant); only per-key content matters to the claims, not
the iteration order. -/
def addOverride (ovr : List (String × String)) (k v : String) :
    List (String × String) :=
  if (lookupKV ovr k).isSome then
    ovr.map (fun p => if p.1 = k then (k, v) else p)
  else ovr ++ [(k, v)]

/-- Function `Config::reload` (config.cpp lines 61-100): clear
`m_properties`, apply every `key = value` assignment read from the config
file in order, then apply every command-line override on top.  The file
parsing itself (comment skipping and `tokenize`, from utils.cpp which is not
under `src/`) is abstracted into the already-parsed assignment list
`fileKVs`; the claims quantify over it, so nothing depends on the parser. -/
def reloadModel (fileKVs ovr : List (String × String)) : String → Option String :=
  ovr.foldl (fun p kv => setValueNoLock p kv.1 kv.2)
    (fileKVs.foldl (fun p kv => setValueNoLock p kv.1 kv.2) (fun _ => none))

end TickTock

namespace TickTock

/-- C1: the code accumulates `m_max = std::max(m_min, value)` with the
already-updated `m_min` (rollup.cpp line 83), so after the in-order values 5
and 3 land in the same bucket the max accumulator is 3, while the claimed
semantics `max(old max, v) = max 5 3` gives 5.  This evaluates the embedded
code at that failing input. -/
theorem c1_rollup_max_eval :
    (addDataPoint (addDataPoint initRollup ⟨10, 0, 100⟩ 0 5).1 ⟨10, 0, 100⟩ 0 3).1.m_max = 3 ∧
    max (addDataPoint initRollup ⟨10, 0, 100⟩ 0 5).1.m_max 3 = 5 ∧
    ((3 : Rat) = 5 → False) := by
  refine ⟨by decide, by decide, by decide⟩

/-- C2: spec scenario (c) evaluated on the embedded code.  A file with
`page_count = 4`, `PAGE_SIZE = 4096` (so `first = 1`) gets three pages
allocated (headers 0,1,2 hold physical pages 1,2,3 and `page_index = 4`); the
third header is zeroed post-hoc and the file is reopened.  The recovery loop
scans `header[3]`, `header[2]`, `header[1]` -- indexing the header table with
physical page indices -- and rolls `page_index` back to 2, so the next
allocation hands out physical page 2, which still belongs to header 1; the
claimed behaviour (reuse the first of the unpersisted slots) requires
`page_index = 3`. -/
theorem c2_recovery_eval :
    (recoverOpen 4096
        { (getFreePageOnDisk 4096 false
            ((getFreePageOnDisk 4096 false
              ((getFreePageOnDisk 4096 false (newFile 4096 4)).2)).2)).2 with
          headers :=
            setHeader
              (getFreePageOnDisk 4096 false
                ((getFreePageOnDisk 4096 false
                  ((getFreePageOnDisk 4096 false (newFile 4096 4)).2)).2)).2.headers
              2 ⟨0, 0, 0, false⟩ }).m_page_index = 2 ∧
    (getFreePageOnDisk 4096 false
        (recoverOpen 4096
          { (getFreePageOnDisk 4096 false
              ((getFreePageOnDisk 4096 false
                ((getFreePageOnDisk 4096 false (newFile 4096 4)).2)).2)).2 with
            headers :=
              setHeader
                (getFreePageOnDisk 4096 false
                  ((getFreePageOnDisk 4096 false
                    ((getFreePageOnDisk 4096 false (newFile 4096 4)).2)).2)).2.headers
                2 ⟨0, 0, 0, false⟩ })).1 = some (2, 3) ∧
    ((2 : Nat) = 3 → False) := by
  refine ⟨by decide, by decide, by decide⟩

/-- C3: `get_free_page_on_disk` succeeds exactly when
`page_index < actual_pg_cnt` and `header_index < page_count` held before the
call; on success it returns the reserved pair, bumps both counters by one and
initializes the reserved header with `offset = 0` and `size = PAGE_SIZE`; on
failure it returns no page and leaves the state unchanged.  The final conjunct
is spec scenario (a): fresh file with `page_count = 4`, `PAGE_SIZE = 4096`,
first free page at `page_index = ceil((header_size + 4*page_info_size)/4096) = 1`
with `header_index = 0`; two allocations leave `header_index = 2` and
`page_index` advanced by 2. -/
theorem c3_get_free_page_on_disk_spec (psz : Nat) (ooo : Bool) (st : PMState) :
    ((getFreePageOnDisk psz ooo st).1.isSome ↔
       st.m_page_index < st.m_actual_pg_cnt ∧ st.m_header_index < st.m_page_count) ∧
    (st.m_page_index < st.m_actual_pg_cnt ∧ st.m_header_index < st.m_page_count →
       (getFreePageOnDisk psz ooo st).1 = some (st.m_page_index, st.m_header_index) ∧
       (getFreePageOnDisk psz ooo st).2.m_page_index = st.m_page_index + 1 ∧
       (getFreePageOnDisk psz ooo st).2.m_header_index = st.m_header_index + 1 ∧
       (getFreePageOnDisk psz ooo st).2.headers st.m_header_index =
         ⟨st.m_page_index, 0, psz, ooo⟩) ∧
    (¬ (st.m_page_index < st.m_actual_pg_cnt ∧ st.m_header_index < st.m_page_count) →
       getFreePageOnDisk psz ooo st = (none, st)) ∧
    ((getFreePageOnDisk 4096 false (newFile 4096 4)).1 =
       some (calcFirstPageInfoIndex 4096 4, 0) ∧
     calcFirstPageInfoIndex 4096 4 = 1 ∧
     (getFreePageOnDisk 4096 false
        ((getFreePageOnDisk 4096 false (newFile 4096 4)).2)).2.m_header_index = 2 ∧
     (getFreePageOnDisk 4096 false
        ((getFreePageOnDisk 4096 false (newFile 4096 4)).2)).2.m_page_index =
       calcFirstPageInfoIndex 4096 4 + 2) := by
  refine ⟨?_, ?_, ?_, by decide, by decide, by decide, by decide⟩
  · unfold getFreePageOnDisk
    split
    · next hcond => simp [hcond]
    · next hcond => simp [hcond]
  · intro h
    unfold getFreePageOnDisk
    rw [if_pos h]
    refine ⟨rfl, rfl, rfl, ?_⟩
    simp [setHeader]
  · intro h
    unfold getFreePageOnDisk
    rw [if_neg h]

/-- Witness for C3: the success characterization applied to the fresh file of
scenario (a). -/
theorem c3_witness :
    ((getFreePageOnDisk 4096 false (newFile 4096 4)).1).isSome :=
  (c3_get_free_page_on_disk_spec 4096 false (newFile 4096 4)).1.mpr (by decide)

/-- C6: on a successful `get_free_page_for_compaction` with at least one
header already allocated, the previous header decides the placement: with at
least 12 bytes of trailing space the new header is packed into the same
physical page at the remaining offset (and its window still ends at
`PAGE_SIZE`), otherwise it starts the next physical page at offset 0 with
size `PAGE_SIZE`.  The hypothesis `hinv` is the header invariant
`offset + size ≤ PAGE_SIZE` of the previous header, under which the Nat
subtraction agrees with the C integer arithmetic. -/
theorem c6_compaction_packing (psz : Nat) (st : PMState)
    (hok : st.m_page_index < st.m_actual_pg_cnt ∧ st.m_header_index < st.m_page_count)
    (hid : 1 ≤ st.m_header_index)
    (hinv : (st.headers (st.m_header_index - 1)).m_offset
              + (st.headers (st.m_header_index - 1)).m_size ≤ psz) :
    (getFreePageForCompaction psz st).1 = some st.m_header_index ∧
    (12 ≤ psz - ((st.headers (st.m_header_index - 1)).m_offset
                  + (st.headers (st.m_header_index - 1)).m_size) →
       (getFreePageForCompaction psz st).2.headers st.m_header_index =
         ⟨(st.headers (st.m_header_index - 1)).m_page_index,
          (st.headers (st.m_header_index - 1)).m_offset
            + (st.headers (st.m_header_index - 1)).m_size,
          psz - ((st.headers (st.m_header_index - 1)).m_offset
                  + (st.headers (st.m_header_index - 1)).m_size),
          false⟩ ∧
       ((getFreePageForCompaction psz st).2.headers st.m_header_index).m_offset
         + ((getFreePageForCompaction psz st).2.headers st.m_header_index).m_size ≤ psz) ∧
    (psz - ((st.headers (st.m_header_index - 1)).m_offset
             + (st.headers (st.m_header_index - 1)).m_size) < 12 →
       (getFreePageForCompaction psz st).2.headers st.m_header_index =
         ⟨(st.headers (st.m_header_index - 1)).m_page_index + 1, 0, psz, false⟩) := by
  simp only [getFreePageForCompaction]
  rw [if_pos hok, if_pos (show 0 < st.m_header_index from hid)]
  refine ⟨rfl, ?_, ?_⟩
  · intro h12
    rw [if_pos h12]
    constructor
    · simp [setHeader]
    · simp [setHeader]
      omega
  · intro h12
    rw [if_neg (by omega :
      ¬ 12 ≤ psz - ((st.headers (st.m_header_index - 1)).m_offset
                     + (st.headers (st.m_header_index - 1)).m_size))]
    simp [setHeader]

/-- Witness for C6: a file whose header 0 occupies 800 bytes of physical page
1; the next compaction allocation is packed after it at offset 800. -/
theorem c6_witness :
    ((getFreePageForCompaction 4096
        { m_page_count := 4, m_page_index := 2, m_header_index := 1,
          m_actual_pg_cnt := 4,
          headers := fun n => if n = 0 then ⟨1, 0, 800, false⟩ else ⟨0, 0, 0, false⟩ }).1 =
       some 1) ∧
    ((getFreePageForCompaction 4096
        { m_page_count := 4, m_page_index := 2, m_header_index := 1,
          m_actual_pg_cnt := 4,
          headers := fun n => if n = 0 then ⟨1, 0, 800, false⟩ else ⟨0, 0, 0, false⟩ }).2.headers 1 =
       ⟨1, 800, 3296, false⟩) := by
  have h := c6_compaction_packing 4096
    { m_page_count := 4, m_page_index := 2, m_header_index := 1,
      m_actual_pg_cnt := 4,
      headers := fun n => if n = 0 then ⟨1, 0, 800, false⟩ else ⟨0, 0, 0, false⟩ }
    (by decide) (by decide) (by decide)
  exact ⟨h.1, ((h.2.1 (by decide)).1).trans (by decide)⟩

/-- C7: `header_index ≤ page_count` holds at creation outright, and
`page_index ≤ actual_pg_cnt` holds at creation exactly when the metadata
region (`tsdb_header` plus the `page_count` header entries) fits inside the
`page_count * page_size` bytes the file is truncated to -- the condition
every completed, coherent creation satisfies (creation requires
`page_count ≥ 1`, since `mmap` of length 0 fails before any header write).
In particular, at the default 4 KiB page size the creation inequalities
hold for every `page_count ≥ 1`.  Both allocation operations preserve both
inequalities unconditionally, for any page size, whether they succeed or
fail. -/
theorem c7_invariants :
    (∀ psz pc, 0 < psz →
       (newFile psz pc).m_header_index ≤ (newFile psz pc).m_page_count ∧
       ((newFile psz pc).m_page_index ≤ (newFile psz pc).m_actual_pg_cnt ↔
          tsdbHeaderSize + pc * pageInfoSize ≤ pc * psz)) ∧
    (∀ pc, 1 ≤ pc →
       (newFile 4096 pc).m_header_index ≤ (newFile 4096 pc).m_page_count ∧
       (newFile 4096 pc).m_page_index ≤ (newFile 4096 pc).m_actual_pg_cnt) ∧
    (∀ psz ooo st,
       st.m_header_index ≤ st.m_page_count →
       st.m_page_index ≤ st.m_actual_pg_cnt →
       (getFreePageOnDisk psz ooo st).2.m_header_index ≤
           (getFreePageOnDisk psz ooo st).2.m_page_count ∧
       (getFreePageOnDisk psz ooo st).2.m_page_index ≤
           (getFreePageOnDisk psz ooo st).2.m_actual_pg_cnt) ∧
    (∀ psz st,
       st.m_header_index ≤ st.m_page_count →
       st.m_page_index ≤ st.m_actual_pg_cnt →
       (getFreePageForCompaction psz st).2.m_header_index ≤
           (getFreePageForCompaction psz st).2.m_page_count ∧
       (getFreePageForCompaction psz st).2.m_page_index ≤
           (getFreePageForCompaction psz st).2.m_actual_pg_cnt) := by
  refine ⟨?_, ?_, ?_, ?_⟩
  · intro psz pc hpsz
    refine ⟨Nat.zero_le _, ?_⟩
    simp only [newFile, calcFirstPageInfoIndex, pageInfoSize, tsdbHeaderSize]
    have h1 : (pc * 20 + 40 + (psz - 1)) / psz < pc + 1 ↔
        pc * 20 + 40 + (psz - 1) < (pc + 1) * psz :=
      Nat.div_lt_iff_lt_mul hpsz
    rw [Nat.succ_mul] at h1
    constructor
    · intro h2
      have h3 := h1.mp (by omega)
      omega
    · intro h2
      have h3 := h1.mpr (by omega)
      omega
  · intro pc hpc
    simp only [newFile, calcFirstPageInfoIndex, pageInfoSize, tsdbHeaderSize]
    constructor
    · exact Nat.zero_le _
    · omega
  · intro psz ooo st h1 h2
    simp only [getFreePageOnDisk]
    split
    · next hcond => simp only; omega
    · exact ⟨h1, h2⟩
  · intro psz st h1 h2
    simp only [getFreePageForCompaction]
    split
    · next hcond => simp only; omega
    · exact ⟨h1, h2⟩

/-- Witness for C7: the creation invariants applied to `page_count = 4` at
the default page size. -/
theorem c7_witness :
    (newFile 4096 4).m_page_index ≤ (newFile 4096 4).m_actual_pg_cnt :=
  (c7_invariants.2.1 4 (by decide)).2

/-- Helper: a gap-filling loop started in a state with zeroed accumulators
and bound tsdb `T`, whose stop bound `min e b` is first reached at the grid
point `c + p * i`, flushes exactly the `p` empty points of `gridEmits` and
exits with `m_tstamp = c + p * i`. -/
theorem gapLoopAux_grid (T : TsdbM) (i e b : Nat) (hi : 0 < i) :
    ∀ fuel p c o, min e b ≤ c + p * i → (∀ q, q < p → c + q * i < min e b) →
      p ≤ fuel →
      gapLoopAux i e b fuel ⟨0, 0, 0, 0, some T, o⟩ c =
        (⟨0, 0, 0, 0, some T, some (c + p * i)⟩, gridEmits T i c p, c + p * i) := by
  intro fuel
  induction fuel with
  | zero =>
      intro p c o hle hlt hpf
      obtain rfl : p = 0 := Nat.le_zero.mp hpf
      simp [gapLoopAux, gridEmits]
  | succ n ih =>
      intro p c o hle hlt hpf
      cases p with
      | zero =>
          have hcond : ¬ (0 < i ∧ c < e ∧ c < b) := by
            rintro ⟨-, h1, h2⟩
            have h3 := lt_min h1 h2
            rw [Nat.zero_mul, Nat.add_zero] at hle
            omega
          simp only [gapLoopAux]
          rw [if_neg hcond]
          simp [gridEmits]
      | succ q =>
          have hc : c < min e b := by
            have h0 := hlt 0 (Nat.succ_pos _)
            simpa using h0
          have hcond : 0 < i ∧ c < e ∧ c < b :=
            ⟨hi, (lt_min_iff.mp hc).1, (lt_min_iff.mp hc).2⟩
          simp only [gapLoopAux]
          rw [if_pos hcond]
          show ((gapLoopAux i e b n ⟨0, 0, 0, 0, some T, some c⟩ (c + i)).1,
                ⟨T, c, 0, 0, 0, 0⟩ ::
                  (gapLoopAux i e b n ⟨0, 0, 0, 0, some T, some c⟩ (c + i)).2.1,
                (gapLoopAux i e b n ⟨0, 0, 0, 0, some T, some c⟩ (c + i)).2.2) = _
          rw [ih q (c + i) (some c) ?hle2 ?hlt2 ?hpf2]
          case hle2 =>
            rw [Nat.succ_mul] at hle
            omega
          case hlt2 =>
            intro r hr
            have hx := hlt (r + 1) (by omega)
            rw [Nat.succ_mul] at hx
            omega
          case hpf2 => omega
          have harith : c + i + q * i = c + (q + 1) * i := by
            rw [Nat.succ_mul]; ring
          rw [harith]
          rfl

/-- Helper: flush keeps the min accumulator nonpositive and only emits
nonpositive mins, starting from a nonpositive min. -/
theorem flushRM_min_le (st : RollupSt) (h : st.m_min ≤ 0) :
    (flushRM st).1.m_min ≤ 0 ∧ ∀ pt ∈ (flushRM st).2, pt.minv ≤ 0 := by
  rcases hts : st.m_tstamp with _ | t <;> rcases hdb : st.m_tsdb with _ | T <;>
    simp [flushRM, hts, hdb, h]

/-- Helper: the gap-filling loop preserves a nonpositive min accumulator and
every point it flushes carries a nonpositive min. -/
theorem gapLoopAux_min_le (i e b : Nat) :
    ∀ fuel st c, st.m_min ≤ 0 →
      (gapLoopAux i e b fuel st c).1.m_min ≤ 0 ∧
      ∀ pt ∈ (gapLoopAux i e b fuel st c).2.1, pt.minv ≤ 0 := by
  intro fuel
  induction fuel with
  | zero =>
      intro st c h
      simpa [gapLoopAux] using h
  | succ n ih =>
      intro st c h
      simp only [gapLoopAux]
      split
      · have hfl := flushRM_min_le { st with m_tstamp := some c } (by simpa using h)
        have hg := ih (flushRM { st with m_tstamp := some c }).1 (c + i) hfl.1
        refine ⟨hg.1, ?_⟩
        intro pt hpt
        simp only [List.mem_append] at hpt
        rcases hpt with h1 | h2
        · exact hfl.2 pt h1
        · exact hg.2 pt h2
      · simpa using h

/-- Helper: accumulation keeps the min accumulator nonpositive. -/
theorem accumulate_min_le (st : RollupSt) (v : Rat) (h : st.m_min ≤ 0) :
    (accumulate st v).m_min ≤ 0 := by
  simpa [accumulate] using le_trans (min_le_left st.m_min v) h

/-- Helper: `add_data_point` preserves a nonpositive min accumulator and only
emits points with nonpositive min. -/
theorem addDP_min_le (st : RollupSt) (tsdb : TsdbM) (ts : Nat) (v : Rat)
    (h : st.m_min ≤ 0) :
    (addDataPoint st tsdb ts v).1.m_min ≤ 0 ∧
    ∀ pt ∈ (addDataPoint st tsdb ts v).2, pt.minv ≤ 0 := by
  simp only [addDataPoint]
  split
  · exact ⟨accumulate_min_le _ v (by simpa using h), by simp⟩
  · simp only [gapLoop]
    have hfl := flushRM_min_le
      { st with
          m_tsdb := some (st.m_tsdb.getD tsdb),
          m_tstamp := some (st.m_tstamp.getD
            (ts - ts % (st.m_tsdb.getD tsdb).interval)) }
      (by simpa using h)
    split
    · refine ⟨?_, ?_⟩
      · apply accumulate_min_le
        refine (gapLoopAux_min_le _ _ _ _ _ _ ?_).1
        exact (gapLoopAux_min_le _ _ _ _ _ _ hfl.1).1
      · intro pt hpt
        simp only [List.mem_append] at hpt
        rcases hpt with (h1 | h2) | h3
        · exact hfl.2 pt h1
        · exact (gapLoopAux_min_le _ _ _ _ _ _ hfl.1).2 pt h2
        · refine (gapLoopAux_min_le _ _ _ _ _ _ ?_).2 pt h3
          exact (gapLoopAux_min_le _ _ _ _ _ _ hfl.1).1
    · refine ⟨?_, ?_⟩
      · apply accumulate_min_le
        exact (gapLoopAux_min_le _ _ _ _ _ _ hfl.1).1
      · intro pt hpt
        simp only [List.mem_append] at hpt
        rcases hpt with h1 | h2
        · exact hfl.2 pt h1
        · exact (gapLoopAux_min_le _ _ _ _ _ _ hfl.1).2 pt h2

/-- C4: within one file, a point whose bucket `t + (k+1)*interval` is strictly
after the current bucket `t` (and strictly before the file end) first flushes
the current accumulators at `t`, then flushes exactly one empty `(0,0,0,0)`
aggregate for each of the `k` missing intervals strictly between the two
buckets, and accumulates the new value into the new bucket.  The state
afterwards holds `cnt = 1`, `sum = v` at the new bucket, so spec scenario (d)
with interval 10 and inputs `(0,1.0)` then `(35,2.0)` emits aggregates at
bucket starts 0, 10, 20 with the 10 and 20 buckets empty, while bucket 30
holds `cnt = 1, sum = 2` (see the witness). -/
theorem c4_rollup_gap_fill (A B : TsdbM) (cnt : Nat) (mn mx sm : Rat)
    (t k ts : Nat) (v : Rat)
    (hi : 0 < A.interval)
    (hb : ts - ts % A.interval = t + (k + 1) * A.interval)
    (hend : t + (k + 1) * A.interval < A.toSec) :
    addDataPoint ⟨cnt, mn, mx, sm, some A, some t⟩ B ts v =
      (⟨1, min 0 v, max (min 0 v) v, v, some A, some (t + (k + 1) * A.interval)⟩,
       ⟨A, t, cnt, mn, mx, sm⟩ :: gridEmits A A.interval (t + A.interval) k) := by
  have hmul : 0 < (k + 1) * A.interval := Nat.mul_pos (Nat.succ_pos k) hi
  have hne : ¬ (t + (k + 1) * A.interval = t) := by omega
  simp only [addDataPoint, Option.getD_some]
  rw [hb, if_neg hne]
  simp only [flushRM, gapLoop]
  rw [gapLoopAux_grid A A.interval A.toSec (t + (k + 1) * A.interval) hi
      (t + (k + 1) * A.interval - (t + A.interval)) k (t + A.interval) (some t)
      ?hle ?hlt ?hpf]
  case hle =>
    rw [min_eq_right (le_of_lt hend), Nat.succ_mul]
    omega
  case hlt =>
    intro q hq
    rw [min_eq_right (le_of_lt hend), Nat.succ_mul]
    have := (Nat.mul_lt_mul_right hi).mpr hq
    omega
  case hpf =>
    have := Nat.le_mul_of_pos_right k hi
    rw [Nat.succ_mul]
    omega
  have hno : ¬ (A.toSec ≤ t + A.interval + k * A.interval) := by
    rw [Nat.succ_mul] at hend
    omega
  rw [if_neg hno]
  have harith : t + A.interval + k * A.interval = t + (k + 1) * A.interval := by
    rw [Nat.succ_mul]; ring
  rw [harith]
  simp [accumulate]

/-- Witness for C4: spec scenario (d).  After `(0, 1.0)` the state is
`cnt 1, min 0, max 1, sum 1` at bucket 0; the point `(35, 2.0)` then emits
the bucket-0 aggregate followed by empty aggregates at 10 and 20, and leaves
bucket 30 with `cnt = 1, sum = 2`. -/
theorem c4_witness :
    (0 < (10 : Nat)) ∧
    (addDataPoint initRollup ⟨10, 0, 100⟩ 0 1).1 =
      ⟨1, 0, 1, 1, some ⟨10, 0, 100⟩, some 0⟩ ∧
    addDataPoint ⟨1, 0, 1, 1, some ⟨10, 0, 100⟩, some 0⟩ ⟨10, 0, 100⟩ 35 2 =
      (⟨1, 0, 2, 2, some ⟨10, 0, 100⟩, some 30⟩,
       [⟨⟨10, 0, 100⟩, 0, 1, 0, 1, 1⟩, ⟨⟨10, 0, 100⟩, 10, 0, 0, 0, 0⟩,
        ⟨⟨10, 0, 100⟩, 20, 0, 0, 0, 0⟩]) := by
  refine ⟨by decide, ?_, ?_⟩
  · norm_num [addDataPoint, accumulate, initRollup, min_def, max_def]
  · have h := c4_rollup_gap_fill ⟨10, 0, 100⟩ ⟨10, 0, 100⟩ 1 0 1 1 0 2 35 2
      (by decide) (by decide) (by decide)
    exact h.trans (by decide)

/-- C5: when the new bucket `b` lies at or past the current file end, the
aggregator flushes the current bucket at `t`, flushes one empty aggregate per
missing interval up to the file end against the old tsdb `A`, rebinds to the
tsdb `B` passed in the call, continues flushing empty aggregates from
`B.fromSec` up to but excluding `b` against `B`, and accumulates the value
into bucket `b` bound to `B`. -/
theorem c5_rollup_file_boundary (A B : TsdbM) (cnt : Nat) (mn mx sm : Rat)
    (t m p b ts : Nat) (v : Rat)
    (hiA : 0 < A.interval) (hiB : 0 < B.interval)
    (hbts : ts - ts % A.interval = b)
    (hcross : A.toSec ≤ b)
    (hend : A.toSec = t + (m + 1) * A.interval)
    (hb2 : b = B.fromSec + p * B.interval) :
    addDataPoint ⟨cnt, mn, mx, sm, some A, some t⟩ B ts v =
      (⟨1, min 0 v, max (min 0 v) v, v, some B, some b⟩,
       (⟨A, t, cnt, mn, mx, sm⟩ :: gridEmits A A.interval (t + A.interval) m) ++
         gridEmits B B.interval B.fromSec p) := by
  have hmulA : 0 < (m + 1) * A.interval := Nat.mul_pos (Nat.succ_pos m) hiA
  have hne : ¬ (b = t) := by omega
  simp only [addDataPoint, Option.getD_some]
  rw [hbts, if_neg hne]
  simp only [flushRM, gapLoop]
  rw [gapLoopAux_grid A A.interval A.toSec b hiA (b - (t + A.interval)) m
      (t + A.interval) (some t) ?hle ?hlt ?hpf]
  case hle =>
    rw [min_eq_left hcross, hend, Nat.succ_mul]
    omega
  case hlt =>
    intro q hq
    rw [min_eq_left hcross, hend, Nat.succ_mul]
    have := (Nat.mul_lt_mul_right hiA).mpr hq
    omega
  case hpf =>
    have h1 := Nat.le_mul_of_pos_right m hiA
    rw [Nat.succ_mul] at hend
    omega
  have hyes : A.toSec ≤ t + A.interval + m * A.interval := by
    rw [Nat.succ_mul] at hend
    omega
  rw [if_pos hyes]
  rw [gapLoopAux_grid B B.interval b b hiB (b - B.fromSec) p B.fromSec
      (some (t + A.interval + m * A.interval)) ?hle2 ?hlt2 ?hpf2]
  case hle2 =>
    rw [min_self]
    omega
  case hlt2 =>
    intro q hq
    rw [min_self]
    have := (Nat.mul_lt_mul_right hiB).mpr hq
    omega
  case hpf2 =>
    have := Nat.le_mul_of_pos_right p hiB
    omega
  rw [show B.fromSec + p * B.interval = b from hb2.symm]
  simp [accumulate]

/-- Witness for C5: spec scenario (f).  Files `[0,100)` and `[100,200)` with
interval 10; after `(5, 1.0)` into the first file, the point `(115, 2.0)`
passed with the second file emits the non-empty bucket-0 aggregate and empty
aggregates at 10..90 against the first file, then an empty aggregate at 100
against the second file, leaving bucket 110 with `cnt = 1, sum = 2` bound to
the second file; an explicit flush then emits that non-empty bucket-110
aggregate. -/
theorem c5_witness :
    (addDataPoint initRollup ⟨10, 0, 100⟩ 5 1).1 =
      ⟨1, 0, 1, 1, some ⟨10, 0, 100⟩, some 0⟩ ∧
    addDataPoint ⟨1, 0, 1, 1, some ⟨10, 0, 100⟩, some 0⟩ ⟨10, 100, 200⟩ 115 2 =
      (⟨1, 0, 2, 2, some ⟨10, 100, 200⟩, some 110⟩,
       [⟨⟨10, 0, 100⟩, 0, 1, 0, 1, 1⟩,
        ⟨⟨10, 0, 100⟩, 10, 0, 0, 0, 0⟩, ⟨⟨10, 0, 100⟩, 20, 0, 0, 0, 0⟩,
        ⟨⟨10, 0, 100⟩, 30, 0, 0, 0, 0⟩, ⟨⟨10, 0, 100⟩, 40, 0, 0, 0, 0⟩,
        ⟨⟨10, 0, 100⟩, 50, 0, 0, 0, 0⟩, ⟨⟨10, 0, 100⟩, 60, 0, 0, 0, 0⟩,
        ⟨⟨10, 0, 100⟩, 70, 0, 0, 0, 0⟩, ⟨⟨10, 0, 100⟩, 80, 0, 0, 0, 0⟩,
        ⟨⟨10, 0, 100⟩, 90, 0, 0, 0, 0⟩, ⟨⟨10, 100, 200⟩, 100, 0, 0, 0, 0⟩]) ∧
    (flushRM ⟨1, 0, 2, 2, some ⟨10, 100, 200⟩, some 110⟩).2 =
      [⟨⟨10, 100, 200⟩, 110, 1, 0, 2, 2⟩] := by
  refine ⟨?_, ?_, by decide⟩
  · norm_num [addDataPoint, accumulate, initRollup, min_def, max_def]
  · have h := c5_rollup_file_boundary ⟨10, 0, 100⟩ ⟨10, 100, 200⟩ 1 0 1 1 0 9 1 110 115 2
      (by decide) (by decide) (by decide) (by decide) (by decide) (by decide)
    exact h.trans (by decide)

/-- C9: the min accumulator starts at 0 (constructor) and is reset to 0 by
every flush, so it stays nonpositive forever: every rollup point emitted by
`add_data_point` or `flush` carries `min ≤ 0`.  In particular a bucket whose
accumulated values are all strictly positive (here 5 and 3) reports `min = 0`
instead of the smallest accumulated value. -/
theorem c9_min_nonpositive :
    initRollup.m_min = 0 ∧
    (∀ st tsdb ts v, st.m_min ≤ 0 →
       (addDataPoint st tsdb ts v).1.m_min ≤ 0 ∧
       ∀ pt ∈ (addDataPoint st tsdb ts v).2, pt.minv ≤ 0) ∧
    (∀ st, st.m_min ≤ 0 →
       (flushRM st).1.m_min ≤ 0 ∧ ∀ pt ∈ (flushRM st).2, pt.minv ≤ 0) ∧
    (addDataPoint (addDataPoint (addDataPoint initRollup ⟨10, 0, 100⟩ 0 5).1
        ⟨10, 0, 100⟩ 3 3).1 ⟨10, 0, 100⟩ 15 7).2 =
      [⟨⟨10, 0, 100⟩, 0, 2, 0, 3, 8⟩] := by
  refine ⟨rfl, addDP_min_le, flushRM_min_le, ?_⟩
  norm_num [addDataPoint, accumulate, initRollup, flushRM, gapLoop, gapLoopAux,
    min_def, max_def]

/-- Witness for C9: the preservation part applied to the initial state. -/
theorem c9_witness :
    (addDataPoint initRollup ⟨10, 0, 100⟩ 0 5).1.m_min ≤ 0 ∧
    ∀ pt ∈ (addDataPoint initRollup ⟨10, 0, 100⟩ 0 5).2, pt.minv ≤ 0 :=
  c9_min_nonpositive.2.1 initRollup ⟨10, 0, 100⟩ 0 5 (by decide)

/-- Helper: a fold of `set_value_no_lock` over pairs whose keys all differ
from `k` does not change the value stored at `k`. -/
theorem foldl_set_not_mem :
    ∀ (l : List (String × String)) (p : String → Option String) (k : String),
      (∀ kv ∈ l, kv.1 ≠ k) →
      (l.foldl (fun q kv => setValueNoLock q kv.1 kv.2) p) k = p k := by
  intro l
  induction l with
  | nil => intro p k _; rfl
  | cons a rest ih =>
      intro p k h
      rw [List.foldl_cons, ih _ k (fun kv hkv => h kv (List.mem_cons_of_mem a hkv))]
      have hne : k ≠ a.1 := Ne.symm (h a (List.mem_cons_self a rest))
      simp [setValueNoLock, hne]

/-- Helper: folding `set_value_no_lock` over an association list with
pairwise distinct keys stores, at any key it contains, exactly the value the
list associates to it. -/
theorem foldl_set_lookup :
    ∀ (ovr : List (String × String)) (p : String → Option String) (k v : String),
      (ovr.map Prod.fst).Nodup → lookupKV ovr k = some v →
      (ovr.foldl (fun q kv => setValueNoLock q kv.1 kv.2) p) k = some v := by
  intro ovr
  induction ovr with
  | nil => intro p k v _ h; simp [lookupKV] at h
  | cons a rest ih =>
      intro p k v hnd hlk
      rw [List.map_cons, List.nodup_cons] at hnd
      rw [List.foldl_cons]
      by_cases hak : a.1 = k
      · have hv : a.2 = v := by simpa [lookupKV, hak] using hlk
        have hnotin : ∀ kv ∈ rest, kv.1 ≠ k := by
          intro kv hkv hkk
          have hmem : kv.1 ∈ rest.map Prod.fst := List.mem_map_of_mem Prod.fst hkv
          rw [hkk, ← hak] at hmem
          exact hnd.1 hmem
        rw [foldl_set_not_mem rest _ k hnotin]
        simp [setValueNoLock, hak.symm, hv]
      · have hlk2 : lookupKV rest k = some v := by simpa [lookupKV, hak] using hlk
        exact ih _ k v hnd.2 hlk2

/-- Helper: an association list contains no entry for `k` exactly when `k`
is not among its keys. -/
theorem lookupKV_eq_none :
    ∀ (l : List (String × String)) (k : String),
      lookupKV l k = none ↔ k ∉ l.map Prod.fst := by
  intro l k
  induction l with
  | nil => simp [lookupKV]
  | cons a rest ih =>
      by_cases hak : a.1 = k
      · simp [lookupKV, hak]
      · simp [lookupKV, hak, ih, Ne.symm hak]

/-- Helper: updating the entry of an already-present key makes lookup return
the new value. -/
theorem lookupKV_map_update :
    ∀ (l : List (String × String)) (k v : String),
      (lookupKV l k).isSome →
      lookupKV (l.map (fun q => if q.1 = k then (k, v) else q)) k = some v := by
  intro l k v
  induction l with
  | nil => simp [lookupKV]
  | cons a rest ih =>
      intro hs
      by_cases hak : a.1 = k
      · simp [lookupKV, hak]
      · have hs2 : (lookupKV rest k).isSome := by simpa [lookupKV, hak] using hs
        simpa [lookupKV, hak] using ih hs2

/-- Helper: the per-entry update of `add_override` keeps the key list
unchanged. -/
theorem map_update_keys :
    ∀ (l : List (String × String)) (k v : String),
      (l.map (fun q => if q.1 = k then (k, v) else q)).map Prod.fst =
        l.map Prod.fst := by
  intro l k v
  induction l with
  | nil => rfl
  | cons a rest ih =>
      by_cases hak : a.1 = k <;> simp [hak, ih]

/-- Helper: appending a fresh entry makes lookup of its key return its
value. -/
theorem lookupKV_append_right :
    ∀ (l : List (String × String)) (k v : String),
      lookupKV l k = none → lookupKV (l ++ [(k, v)]) k = some v := by
  intro l k v
  induction l with
  | nil => intro _; simp [lookupKV]
  | cons a rest ih =>
      intro h
      by_cases hak : a.1 = k
      · simp [lookupKV, hak] at h
      · have h2 : lookupKV rest k = none := by simpa [lookupKV, hak] using h
        simpa [lookupKV, hak] using ih h2

/-- C8: overrides take precedence over file values and survive every reload.
First part: for any parsed file contents and any override table (with the
distinct keys a `std::map` guarantees), after `reload` the property stored at
an overridden key is the override value, whatever the file assigned to it.
Second part: `add_override` maintains the distinct-key invariant and makes
the override table associate the registered key to the registered value. -/
theorem c8_override_precedence :
    (∀ fileKVs ovr k v, (ovr.map Prod.fst).Nodup → lookupKV ovr k = some v →
       reloadModel fileKVs ovr k = some v) ∧
    (∀ ovr k v, (ovr.map Prod.fst).Nodup →
       ((addOverride ovr k v).map Prod.fst).Nodup ∧
       lookupKV (addOverride ovr k v) k = some v) := by
  constructor
  · intro fileKVs ovr k v hnd hlk
    exact foldl_set_lookup ovr _ k v hnd hlk
  · intro ovr k v hnd
    unfold addOverride
    split
    · next hs =>
        refine ⟨?_, lookupKV_map_update ovr k v hs⟩
        rw [map_update_keys]
        exact hnd
    · next hs =>
        have hnone : lookupKV ovr k = none := Option.not_isSome_iff_eq_none.mp hs
        refine ⟨?_, lookupKV_append_right ovr k v hnone⟩
        rw [List.map_append]
        refine List.Nodup.append hnd (by simp) ?_
        intro x hx hx2
        simp only [List.map_cons, List.map_nil, List.mem_singleton] at hx2
        subst hx2
        exact (lookupKV_eq_none ovr x).mp hnone hx

/-- Witness for C8: the file assigns 65536 to the key, the command line
overrides it with 4096; after reload the stored value is 4096. -/
theorem c8_witness :
    (([("tsdb.page.count", "4096")]).map Prod.fst).Nodup ∧
    lookupKV [("tsdb.page.count", "4096")] "tsdb.page.count" = some "4096" ∧
    reloadModel [("tsdb.page.count", "65536")] [("tsdb.page.count", "4096")]
      "tsdb.page.count" = some "4096" := by
  refine ⟨by decide, by decide, ?_⟩
  exact c8_override_precedence.1 [("tsdb.page.count", "65536")]
    [("tsdb.page.count", "4096")] "tsdb.page.count" "4096" (by decide) (by decide)

/-- C10: a `PageInfo` without a live compressor (for example the read view
produced by `init_from_disk`, which always leaves the compressor unset)
rejects `add_data_point` with `false` and changes neither the attached
on-disk header nor the in-memory time range, whatever the compressor
implementation would do. -/
theorem c10_add_dp_no_compressor {σ : Type} (compress : σ → Nat → Rat → Bool × σ)
    (pi : PageInfoSt σ) (ts : Nat) (v : Rat) (h : pi.m_compressor = none) :
    piAddDataPoint compress pi ts v = (false, pi) ∧
    (piAddDataPoint compress pi ts v).2.m_header = pi.m_header ∧
    (piAddDataPoint compress pi ts v).2.m_time_range = pi.m_time_range ∧
    ∀ start header, (initFromDisk σ start header).m_compressor = none := by
  have hmain : piAddDataPoint compress pi ts v = (false, pi) := by
    simp [piAddDataPoint, h]
  exact ⟨hmain, by rw [hmain], by rw [hmain], fun start header => rfl⟩

/-- Witness for C10: a read view freshly loaded from disk rejects a
datapoint even under a compressor that would always accept. -/
theorem c10_witness :
    (initFromDisk Unit 0 ⟨0, 0, 0, 0, 0⟩).m_compressor = none ∧
    piAddDataPoint (fun c _ _ => (true, c))
      (initFromDisk Unit 0 ⟨0, 0, 0, 0, 0⟩) 5 1 =
      (false, initFromDisk Unit 0 ⟨0, 0, 0, 0, 0⟩) :=
  ⟨rfl, (c10_add_dp_no_compressor (fun c _ _ => (true, c))
      (initFromDisk Unit 0 ⟨0, 0, 0, 0, 0⟩) 5 1 rfl).1⟩

end TickTock
